import Mathlib

/-!
Verification of the chat-collection backend (FastAPI + collector worker).

Shallow embedding of the parts of the source the claims are about:

* `src/main.py` — `import_csv_to_mongo`, `get_chat_log_messages`,
  `get_latest_chat_log_file`, `get_messages_collection`,
  `get_collection_datetime`;
* `src/services/process_service.py` — `stop_collector_process`,
  `get_running_processes` and the module-level `collector_processes` table.

The MongoDB store is modelled as a list of inserted documents; `find_one`
with an equality filter is membership under that filter; `insert_one`
appends.  The filesystem scan of the log directory is modelled by passing
the directory listing (filename, creation time) as data.  OS process
behaviour during `stop` is modelled by an oracle describing how the process
reacts to the graceful signal and to the forced kill.
-/

namespace YtBackend

/-- A document inserted into the store by `import_csv_to_mongo`
(src/main.py lines 242-248): the five string fields of one CSV row plus
the stream id. -/
structure ChatMsg where
  video_id : String
  datetime : String
  author : String
  message : String
  superChat : String
deriving DecidableEq, Repr

/-- The store: the list of documents inserted so far into the collection
addressed by the import. -/
abbrev Store := List ChatMsg

/-- The deduplication key `import_csv_to_mongo` queries the store with
(src/main.py lines 255-260): exactly the fields `video_id`, `datetime`,
`author`, `message` — `superChat` is not part of the filter. -/
def dedupKey (r : ChatMsg) : String × String × String × String :=
  (r.video_id, r.datetime, r.author, r.message)

/-- `find_one` with the four-field equality filter: does any stored
document have the given key tuple? -/
def findOneByKey (store : Store) (k : String × String × String × String) : Bool :=
  store.any (fun r => dedupKey r == k)

/-- One observable store operation performed by the import loop. -/
inductive StoreOp where
  | query (k : String × String × String × String)
  | insert (m : ChatMsg)
deriving DecidableEq, Repr

/-- One iteration of the row loop of `import_csv_to_mongo`
(src/main.py lines 240-249): a CSV data row with at least four fields
becomes a candidate document `{video_id, datetime := row[0],
author := row[1], message := row[2], superChat := row[3]}`; a shorter row
is skipped (`if len(row) >= 4`). -/
def rowToCandidate (vid : String) (row : List String) : Option ChatMsg :=
  match row with
  | d :: a :: m :: sc :: _ =>
      some { video_id := vid, datetime := d, author := a, message := m, superChat := sc }
  | _ => none

/-- Builds the `messages` list of `import_csv_to_mongo`
(src/main.py lines 240-249). -/
def parseRows (vid : String) (rows : List (List String)) : List ChatMsg :=
  rows.filterMap (rowToCandidate vid)

/-- The insert loop of `import_csv_to_mongo` (src/main.py lines 253-262):
for each candidate, query the store by the four-field key; on a miss,
insert the candidate and increment the counter.  Returns the inserted
count, the final store, and the trace of store operations performed. -/
def importMsgs : List ChatMsg → Store → Nat × Store × List StoreOp
  | [], store => (0, store, [])
  | msg :: rest, store =>
    if findOneByKey store (dedupKey msg) then
      let r := importMsgs rest store
      (r.1, r.2.1, .query (dedupKey msg) :: r.2.2)
    else
      let r := importMsgs rest (store ++ [msg])
      (r.1 + 1, r.2.1, .query (dedupKey msg) :: .insert msg :: r.2.2)

/-- `import_csv_to_mongo` after the log file has been located and read
(src/main.py lines 236-263): parse the data rows (the header is already
skipped by `next(reader)`); if no candidate was built, return
`{"inserted": 0}` without touching the store at all; otherwise run the
insert loop. -/
def import_csv_to_mongo (vid : String) (rows : List (List String)) (store : Store) :
    Nat × Store × List StoreOp :=
  let messages := parseRows vid rows
  if messages.isEmpty then (0, store, [])
  else importMsgs messages store

/-- Number of stored documents carrying a given dedup key. -/
def countKey (store : Store) (k : String × String × String × String) : Nat :=
  (store.filter (fun r => dedupKey r == k)).length

/-! ### Process supervisor (src/services/process_service.py) -/

/-- Association-list lookup, modelling Python `dict.get`. -/
def lookupAssoc {α : Type} (vid : String) : List (String × α) → Option α
  | [] => none
  | (v, x) :: rest => if v == vid then some x else lookupAssoc vid rest

/-- `del table[vid]` (and the guarded `if vid in table: del table[vid]`). -/
def eraseEntry {α : Type} (vid : String) (table : List (String × α)) : List (String × α) :=
  table.filter (fun e => e.1 != vid)

/-- `table[vid] = x`: insert or silently overwrite. -/
def setEntry {α : Type} (vid : String) (x : α) (table : List (String × α)) : List (String × α) :=
  eraseEntry vid table ++ [(vid, x)]

/-- The module-level `collector_processes` dict: stream id ↦ OS pid. -/
abbrev ProcTable := List (String × Nat)

/-- Oracle for how the OS process reacts to the graceful phase of
`stop_collector_process` (`p.send_signal(SIGINT); p.wait(timeout=5)`,
lines 76-78). -/
inductive GracefulOutcome where
  /-- The process exits `t` time units after the graceful signal:
  `p.wait(timeout=5)` returns iff `t ≤ 5`, else raises `TimeoutExpired`. -/
  | exitsAfter (t : Nat)
  /-- The process ignores the signal: `p.wait(timeout=5)` raises
  `TimeoutExpired`. -/
  | ignores
  /-- The OS reports the process already gone: `psutil.NoSuchProcess`. -/
  | noSuchProcess
  /-- An unexpected error (e.g. permissions) at signal/wait time. -/
  | raisesOther
deriving DecidableEq, Repr

/-- Oracle for the forced-kill phase (`p.kill(); p.wait(timeout=2)`,
lines 96-97). -/
inductive KillOutcome where
  /-- The process exits `t` time units after the kill signal:
  `p.wait(timeout=2)` returns iff `t ≤ 2`, else raises `TimeoutExpired`
  (caught by the generic handler, line 105). -/
  | exitsAfter (t : Nat)
  /-- `psutil.NoSuchProcess` during the kill attempt (line 101). -/
  | noSuchProcess
  /-- The kill attempt raises an unexpected error (line 105). -/
  | raisesError
deriving DecidableEq, Repr

/-- Behaviour of one OS process under the stop state machine. -/
structure ProcBehavior where
  graceful : GracefulOutcome
  kill : KillOutcome
deriving DecidableEq, Repr

/-- Outcome of `stop_collector_process` as seen by the HTTP layer:
a success payload or a raised `HTTPException` with a status class. -/
inductive StopStatus where
  /-- `{"status": "stopped"}` (line 83). -/
  | stopped
  /-- `{"status": "killed"}` (line 100). -/
  | killed
  /-- `HTTPException(status_code=404)` — `NotFoundError`. -/
  | notFound
  /-- `HTTPException(status_code=500)` — `FatalStopError`. -/
  | serverError
deriving DecidableEq, Repr

/-- The forced-kill phase of `stop_collector_process`
(lines 93-109), reached after `TimeoutExpired` on the graceful wait.
Returns (status, new table, kill-signal-sent flag); the flag is `true`
in every branch because `p.kill()` has been invoked. -/
def killPhase (vid : String) (table : ProcTable) : KillOutcome → StopStatus × ProcTable × Bool
  | .exitsAfter t =>
      if t ≤ 2 then (.killed, eraseEntry vid table, true)
      else (.serverError, table, true)
  | .noSuchProcess => (.notFound, eraseEntry vid table, true)
  | .raisesError => (.serverError, table, true)

/-- `stop_collector_process(video_id)` (src/services/process_service.py
lines 66-114).  `pb` is the behaviour of the OS process with the tracked
pid.  Returns (status, new `collector_processes` table, whether a kill
signal was sent).  Note `if not pid:` treats a pid of 0 as falsy, like
the Python. -/
def stop_collector_process (vid : String) (table : ProcTable) (pb : ProcBehavior) :
    StopStatus × ProcTable × Bool :=
  match lookupAssoc vid table with
  | none => (.notFound, table, false)
  | some pid =>
    if pid == 0 then (.notFound, table, false)
    else
      match pb.graceful with
      | .exitsAfter t =>
          if t ≤ 5 then (.stopped, eraseEntry vid table, false)
          else killPhase vid table pb.kill
      | .ignores => killPhase vid table pb.kill
      | .noSuchProcess => (.notFound, eraseEntry vid table, false)
      | .raisesOther => (.serverError, table, false)

/-- Supervisor state for the snapshot claim: the live table plus the heap
of dict objects previously returned by `get_running_processes` (each
`dict(collector_processes)` call allocates a fresh dict copying the
table; later table mutations write the table object, never a returned
copy). -/
structure SupervisorState where
  table : ProcTable
  snapshots : List ProcTable
deriving DecidableEq, Repr

/-- `get_running_processes()` (lines 116-118): `return dict(collector_processes)`.
Allocates a new snapshot cell holding a copy of the current table and
returns its index. -/
def get_running_processes (s : SupervisorState) : Nat × SupervisorState :=
  (s.snapshots.length, { s with snapshots := s.snapshots ++ [s.table] })

/-- A mutation of the supervisor table performed after a snapshot was
taken: a start (dict insert/overwrite, line 38), a stop (table update per
the stop state machine), or another list call. -/
inductive TableMutation where
  | startOp (vid : String) (pid : Nat)
  | stopOp (vid : String) (pb : ProcBehavior)
  | listOp
deriving Repr

/-- Effect of one mutation on the supervisor state.  Every branch either
rewrites `table` or appends a fresh snapshot cell; no branch writes an
existing snapshot cell. -/
def applyMutation (s : SupervisorState) (op : TableMutation) : SupervisorState :=
  match op with
  | .startOp vid pid => { s with table := setEntry vid pid s.table }
  | .stopOp vid pb => { s with table := (stop_collector_process vid s.table pb).2.1 }
  | .listOp => (get_running_processes s).2

/-! ### Latest-log-file selection (src/main.py lines 195-200) -/

/-- The filename filter of `get_latest_chat_log_file`:
`f.startswith(f"chat_log_{video_id}_") and f.endswith(".csv")`
(string prefix/suffix tests, taken on the character lists). -/
def matchesLogName (vid : String) (name : String) : Bool :=
  ("chat_log_" ++ vid ++ "_").data.isPrefixOf name.data
    && (".csv" : String).data.isSuffixOf name.data

/-- Python `max(files, key=ctime)`: left fold keeping the current best,
replaced only on a strictly greater key, so the first maximum wins. -/
def maxByCtime (f : String × Nat) (fs : List (String × Nat)) : String × Nat :=
  fs.foldl (fun best g => if g.2 > best.2 then g else best) f

/-- `get_latest_chat_log_file(video_id)` (src/main.py lines 195-200).
The directory listing is passed as data: one (filename, creation time)
pair per file in `CHAT_LOG_DIR`.  Returns the name of the matching file
with the greatest creation time, or `none` when no file matches (the
Python then joins the name onto `CHAT_LOG_DIR`, a fixed prefix). -/
def get_latest_chat_log_file (vid : String) (files : List (String × Nat)) : Option String :=
  match files.filter (fun f => matchesLogName vid f.1) with
  | [] => none
  | f :: fs => some (maxByCtime f fs).1

/-! ### Timestamp parsing in `get_chat_log_messages`
(src/main.py lines 202-228) -/

/-- Split a character list at every occurrence of a separator character
(the splitting `strptime` performs at the format's literal `-`, ` `, `:`
separators). -/
def splitOnChar (c : Char) : List Char → List (List Char)
  | [] => [[]]
  | x :: xs =>
    let r := splitOnChar c xs
    if x == c then [] :: r
    else
      match r with
      | [] => [[x]]
      | y :: ys => (x :: y) :: ys

/-- One numeric field of the fixed format `%Y-%m-%d %H:%M:%S`: between 1
and `maxLen` digits. -/
def parseField (l : List Char) (maxLen : Nat) : Option Nat :=
  if l.length = 0 ∨ maxLen < l.length ∨ ¬(l.all Char.isDigit) then none
  else some (l.foldl (fun n c => n * 10 + (c.toNat - 48)) 0)

def isLeapYear (y : Nat) : Bool :=
  (y % 4 == 0 && y % 100 != 0) || y % 400 == 0

def daysInMonth (y m : Nat) : Nat :=
  if m == 2 then (if isLeapYear y then 29 else 28)
  else if m == 4 || m == 6 || m == 9 || m == 11 then 30 else 31

/-- Days between a proleptic-Gregorian civil date and 1970-01-01
(standard era/year-of-era computation); all intermediate quantities are
non-negative for years ≥ 1. -/
def daysFromCivil (y m d : Nat) : Int :=
  let yAdj : Int := (y : Int) - (if m ≤ 2 then 1 else 0)
  let era : Int := (if 0 ≤ yAdj then yAdj else yAdj - 399) / 400
  let yoe : Int := yAdj - era * 400
  let mp : Int := ((m : Int) + 9) % 12
  let doy : Int := (153 * mp + 2) / 5 + (d : Int) - 1
  let doe : Int := yoe * 365 + yoe / 4 - yoe / 100 + doy
  era * 146097 + doe - 719468

/-- Model of `int(datetime.strptime(s, "%Y-%m-%d %H:%M:%S").timestamp() * 1000)`
(src/main.py lines 223-224): parse the fixed format, validate the
calendar fields (as `datetime` does), and convert to milliseconds since
the epoch; `none` models the `ValueError` caught at line 225.  The wall
clock is taken as UTC, as the source's own comment states. -/
def parseTimestampMs (s : String) : Option Int :=
  match splitOnChar ' ' s.data with
  | [dpart, tpart] =>
    match splitOnChar '-' dpart, splitOnChar ':' tpart with
    | [ys, mos, ds], [hs, mins, ss] =>
      match parseField ys 4, parseField mos 2, parseField ds 2,
            parseField hs 2, parseField mins 2, parseField ss 2 with
      | some y, some mo, some d, some h, some mi, some sec =>
        if 1 ≤ y ∧ y ≤ 9999 ∧ 1 ≤ mo ∧ mo ≤ 12 ∧ 1 ≤ d ∧ d ≤ daysInMonth y mo
            ∧ h ≤ 23 ∧ mi ≤ 59 ∧ sec ≤ 59 then
          some ((daysFromCivil y mo d * 86400
                 + (h : Int) * 3600 + (mi : Int) * 60 + (sec : Int)) * 1000)
        else none
      | _, _, _, _, _, _ => none
    | _, _ => none
  | _ => none

/-- One record returned by `get_chat_log_messages` (lines 214-227). -/
structure LogRecord where
  datetime : String
  author : String
  message : String
  superChat : String
  video_id : String
  timestamp : Int
deriving DecidableEq, Repr

/-- One iteration of the row loop of `get_chat_log_messages`: a data row
with at least four fields becomes a record whose numeric `timestamp`
falls back to 0 when the textual timestamp fails to parse (lines 222-226);
shorter rows are skipped. -/
def rowToRecord (vid : String) (row : List String) : Option LogRecord :=
  match row with
  | d :: a :: m :: sc :: _ =>
      some { datetime := d, author := a, message := m, superChat := sc, video_id := vid,
             timestamp := (parseTimestampMs d).getD 0 }
  | _ => none

/-- `get_chat_log_messages` after the log file has been located and read
(src/main.py lines 208-228), applied to the data rows (header already
skipped). -/
def get_chat_log_messages (vid : String) (rows : List (List String)) : List LogRecord :=
  rows.filterMap (rowToRecord vid)

/-! ### Store collection naming (src/main.py lines 49-61, src/collector.py
lines 14-15) -/

/-- The module-level `collection_datetimes` dict of src/main.py. -/
abbrev DatetimeTable := List (String × String)

/-- `get_collection_datetime(video_id)` (src/main.py lines 51-55): memoise
the current datetime string (`now`) on first use for this stream id. -/
def get_collection_datetime (vid : String) (dts : DatetimeTable) (now : String) :
    String × DatetimeTable :=
  match lookupAssoc vid dts with
  | some dt => (dt, dts)
  | none => (now, dts ++ [(vid, now)])

/-- The collection name computed by `get_messages_collection(video_id)` in
src/main.py (lines 57-61), used by `/messages`, `/analyze` and
`/import_csv_to_mongo`: `f"messages_{video_id}_{dt}"`. -/
def get_messages_collection_name (vid : String) (dts : DatetimeTable) (now : String) :
    String × DatetimeTable :=
  let r := get_collection_datetime vid dts now
  ("messages_" ++ vid ++ "_" ++ r.1, r.2)

/-- The collection name used by the collector worker
(src/collector.py lines 14-15): `f"messages_{video_id}"`. -/
def collector_messages_collection_name (vid : String) : String :=
  "messages_" ++ vid

/-! ### Lemmas about the import loop -/

theorem findOneByKey_append_left {s : Store} {k : String × String × String × String}
    (h : findOneByKey s k = true) (t : Store) : findOneByKey (s ++ t) k = true := by
  simp only [findOneByKey, List.any_append, Bool.or_eq_true]
  exact Or.inl h

theorem findOneByKey_self (s : Store) (msg : ChatMsg) :
    findOneByKey (s ++ [msg]) (dedupKey msg) = true := by
  simp [findOneByKey]

/-- The store only grows during the insert loop. -/
theorem importMsgs_store_extends (msgs : List ChatMsg) (s : Store) :
    ∃ t, (importMsgs msgs s).2.1 = s ++ t := by
  induction msgs generalizing s with
  | nil => exact ⟨[], by simp [importMsgs]⟩
  | cons msg rest ih =>
    by_cases h : findOneByKey s (dedupKey msg) = true
    · obtain ⟨t, ht⟩ := ih s
      exact ⟨t, by simp [importMsgs, h, ht]⟩
    · obtain ⟨t, ht⟩ := ih (s ++ [msg])
      refine ⟨[msg] ++ t, ?_⟩
      simp only [importMsgs, h, if_false, Bool.false_eq_true]
      rw [ht, List.append_assoc]

/-- After the insert loop, every processed candidate's key is present in
the final store. -/
theorem importMsgs_mem_found (msgs : List ChatMsg) (s : Store) :
    ∀ msg ∈ msgs, findOneByKey (importMsgs msgs s).2.1 (dedupKey msg) = true := by
  induction msgs generalizing s with
  | nil => intro msg hm; cases hm
  | cons hd rest ih =>
    intro msg hm
    by_cases h : findOneByKey s (dedupKey hd) = true
    · simp only [importMsgs, h, if_true]
      rcases List.mem_cons.mp hm with rfl | hm'
      · obtain ⟨t, ht⟩ := importMsgs_store_extends rest s
        rw [ht]; exact findOneByKey_append_left h t
      · exact ih s msg hm'
    · simp only [importMsgs, h, if_false, Bool.false_eq_true]
      rcases List.mem_cons.mp hm with rfl | hm'
      · obtain ⟨t, ht⟩ := importMsgs_store_extends rest (s ++ [msg])
        rw [ht]; exact findOneByKey_append_left (findOneByKey_self s msg) t
      · exact ih (s ++ [hd]) msg hm'

/-- If every candidate's key is already in the store, the loop inserts
nothing and leaves the store unchanged. -/
theorem importMsgs_all_found (msgs : List ChatMsg) (s : Store)
    (h : ∀ msg ∈ msgs, findOneByKey s (dedupKey msg) = true) :
    (importMsgs msgs s).1 = 0 ∧ (importMsgs msgs s).2.1 = s := by
  induction msgs with
  | nil => simp [importMsgs]
  | cons hd rest ih =>
    have hhd : findOneByKey s (dedupKey hd) = true := h hd (List.mem_cons_self hd rest)
    have := ih (fun msg hm => h msg (List.mem_cons_of_mem hd hm))
    simp [importMsgs, hhd, this.1, this.2]

theorem countKey_append (s t : Store) (k : String × String × String × String) :
    countKey (s ++ t) k = countKey s k + countKey t k := by
  simp [countKey, List.filter_append]

theorem countKey_eq_zero_of_not_found {s : Store} {k : String × String × String × String}
    (h : findOneByKey s k = false) : countKey s k = 0 := by
  simp only [findOneByKey, List.any_eq_false] at h
  simp only [countKey, List.length_eq_zero, List.filter_eq_nil_iff]
  exact h

theorem countKey_pos_of_found {s : Store} {k : String × String × String × String}
    (h : findOneByKey s k = true) : 0 < countKey s k := by
  simp only [findOneByKey, List.any_eq_true] at h
  obtain ⟨r, hr, hp⟩ := h
  have : r ∈ s.filter (fun r => dedupKey r == k) := List.mem_filter.mpr ⟨hr, hp⟩
  simpa [countKey] using List.length_pos.mpr (List.ne_nil_of_mem this)

theorem countKey_singleton_self (msg : ChatMsg) : countKey [msg] (dedupKey msg) = 1 := by
  simp [countKey]

/-- The insert loop never lets a key's multiplicity grow past one: the
guard queries exactly that key before every insert. -/
theorem importMsgs_countKey_le_one (msgs : List ChatMsg) (s : Store)
    (k : String × String × String × String) (h : countKey s k ≤ 1) :
    countKey (importMsgs msgs s).2.1 k ≤ 1 := by
  induction msgs generalizing s with
  | nil => simpa [importMsgs] using h
  | cons hd rest ih =>
    by_cases hf : findOneByKey s (dedupKey hd) = true
    · simp only [importMsgs, hf, if_true]
      exact ih s h
    · have hf' : findOneByKey s (dedupKey hd) = false := by
        simpa using hf
      simp only [importMsgs, hf', Bool.false_eq_true, if_false]
      apply ih
      rw [countKey_append]
      by_cases hk : dedupKey hd = k
      · have h0 : countKey s k = 0 := countKey_eq_zero_of_not_found (hk ▸ hf')
        have h1 : countKey [hd] k = 1 := hk ▸ countKey_singleton_self hd
        omega
      · have h1 : countKey [hd] k = 0 := by
          simp [countKey, hk]
        omega

/-- C1: Reconciliation is idempotent.  For any located log file (given as
its data rows) and any store state, running `import_csv_to_mongo` once and
then immediately again yields an inserted count of 0 on the second run,
and the store after both runs equals the store after the first run alone. -/
theorem import_csv_to_mongo_idempotent (vid : String) (rows : List (List String))
    (store : Store) :
    (import_csv_to_mongo vid rows (import_csv_to_mongo vid rows store).2.1).1 = 0 ∧
    (import_csv_to_mongo vid rows (import_csv_to_mongo vid rows store).2.1).2.1 =
      (import_csv_to_mongo vid rows store).2.1 := by
  by_cases h : (parseRows vid rows).isEmpty
  · simp [import_csv_to_mongo, h]
  · simp only [import_csv_to_mongo, h, Bool.false_eq_true, if_false]
    exact importMsgs_all_found _ _
      (importMsgs_mem_found (parseRows vid rows) store)

/-- C3: The deduplication key is exactly `(stream_id, timestamp, author,
text)` and excludes the super-chat amount: a log containing two rows that
agree on those fields but differ in `superChat`, imported into a store
holding no record with that key, leaves exactly one record with that key
in the store. -/
theorem import_dedup_key_excludes_superchat
    (vid d a m sc₁ sc₂ : String) (rows : List (List String)) (store : Store)
    (_hne : sc₁ ≠ sc₂) (h₁ : [d, a, m, sc₁] ∈ rows) (_h₂ : [d, a, m, sc₂] ∈ rows)
    (h0 : countKey store (vid, d, a, m) = 0) :
    countKey (import_csv_to_mongo vid rows store).2.1 (vid, d, a, m) = 1 := by
  have hmem : (⟨vid, d, a, m, sc₁⟩ : ChatMsg) ∈ parseRows vid rows := by
    simp only [parseRows, List.mem_filterMap]
    exact ⟨[d, a, m, sc₁], h₁, rfl⟩
  have hne' : (parseRows vid rows).isEmpty = false := by
    cases hp : parseRows vid rows with
    | nil => rw [hp] at hmem; cases hmem
    | cons x xs => rfl
  simp only [import_csv_to_mongo, hne', Bool.false_eq_true, if_false]
  have hle := importMsgs_countKey_le_one (parseRows vid rows) store (vid, d, a, m)
    (by omega)
  have hfound := importMsgs_mem_found (parseRows vid rows) store _ hmem
  have hpos : 0 < countKey (importMsgs (parseRows vid rows) store).2.1 (vid, d, a, m) :=
    countKey_pos_of_found hfound
  omega

/-- Witness for C3 at a concrete input: two rows identical except for the
super-chat amount, imported into an empty store, leave one record. -/
theorem import_dedup_key_excludes_superchat_witness :
    ("1" : String) ≠ "2" ∧
    [("t" : String), "a", "m", "1"] ∈ [[("t" : String), "a", "m", "1"], ["t", "a", "m", "2"]] ∧
    [("t" : String), "a", "m", "2"] ∈ [[("t" : String), "a", "m", "1"], ["t", "a", "m", "2"]] ∧
    countKey [] ("v", "t", "a", "m") = 0 ∧
    countKey (import_csv_to_mongo "v" [["t", "a", "m", "1"], ["t", "a", "m", "2"]] []).2.1
      ("v", "t", "a", "m") = 1 :=
  ⟨by decide, by decide, by decide, rfl,
    YtBackend.import_dedup_key_excludes_superchat "v" "t" "a" "m" "1" "2"
      [["t", "a", "m", "1"], ["t", "a", "m", "2"]] [] (by decide) (by decide) (by decide) rfl⟩

theorem rowToCandidate_eq_none_of_short {vid : String} {row : List String}
    (h : row.length < 4) : rowToCandidate vid row = none := by
  match row with
  | [] => rfl
  | [_] => rfl
  | [_, _] => rfl
  | [_, _, _] => rfl
  | _ :: _ :: _ :: _ :: _ =>
    simp only [List.length_cons] at h
    omega

/-- C10: If the located log file contains no data row with at least four
fields, the import succeeds with an inserted count of 0 and performs no
store query or insert at all, leaving the store unchanged. -/
theorem import_csv_to_mongo_header_only (vid : String) (rows : List (List String))
    (store : Store) (h : ∀ row ∈ rows, row.length < 4) :
    YtBackend.import_csv_to_mongo vid rows store = (0, store, []) := by
  have hnil : parseRows vid rows = [] := by
    simp only [parseRows, List.filterMap_eq_nil_iff]
    exact fun row hr => rowToCandidate_eq_none_of_short (h row hr)
  simp [import_csv_to_mongo, hnil]

/-- Witness for C10 at a concrete input: one three-field row (and so also
a header-only file, whose data-row list is empty). -/
theorem import_csv_to_mongo_header_only_witness :
    (∀ row ∈ [[("a" : String), "b", "c"]], row.length < 4) ∧
    YtBackend.import_csv_to_mongo "v" [["a", "b", "c"]] [] = (0, [], []) :=
  ⟨by decide, import_csv_to_mongo_header_only "v" [["a", "b", "c"]] [] (by decide)⟩

/-! ### The stop state machine (C2, C5, C6) -/

/-- C2: For a tracked worker whose process exists: if the process exits
within 5 time units of the graceful signal, `stop` returns
`{status: "stopped"}` and no kill signal is ever sent; if it ignores the
graceful signal for more than 5 time units and then exits within 2 time
units of the forced kill, a kill signal is sent and `stop` returns
`{status: "killed"}`. -/
theorem stop_graceful_then_forced (vid : String) (table : ProcTable) (pid : Nat)
    (pb : ProcBehavior) (hpid : lookupAssoc vid table = some pid) (hpz : pid ≠ 0) :
    (∀ t, pb.graceful = GracefulOutcome.exitsAfter t → t ≤ 5 →
      stop_collector_process vid table pb =
        (StopStatus.stopped, eraseEntry vid table, false)) ∧
    (∀ u, (pb.graceful = GracefulOutcome.ignores ∨
        ∃ t, pb.graceful = GracefulOutcome.exitsAfter t ∧ 5 < t) →
      pb.kill = KillOutcome.exitsAfter u → u ≤ 2 →
      stop_collector_process vid table pb =
        (StopStatus.killed, eraseEntry vid table, true)) := by
  have hpz' : (pid == 0) = false := by simpa using hpz
  constructor
  · intro t hg ht
    simp [stop_collector_process, hpid, hpz', hg, ht]
  · intro u hg hk hu
    rcases hg with hg | ⟨t, hg, ht⟩
    · simp [stop_collector_process, killPhase, hpid, hpz', hg, hk, hu]
    · have ht' : ¬ t ≤ 5 := by omega
      simp [stop_collector_process, killPhase, hpid, hpz', hg, hk, hu, ht']

/-- Witness for C2 at concrete inputs: a process that exits 3 units after
the graceful signal is reported stopped with no kill; one that ignores
the graceful signal and dies 1 unit after the kill is reported killed. -/
theorem stop_graceful_then_forced_witness :
    stop_collector_process "v" [("v", 7)]
        ⟨GracefulOutcome.exitsAfter 3, KillOutcome.raisesError⟩ =
      (StopStatus.stopped, [], false) ∧
    stop_collector_process "v" [("v", 7)]
        ⟨GracefulOutcome.ignores, KillOutcome.exitsAfter 1⟩ =
      (StopStatus.killed, [], true) :=
  ⟨((stop_graceful_then_forced "v" [("v", 7)] 7
      ⟨GracefulOutcome.exitsAfter 3, KillOutcome.raisesError⟩ (by decide) (by decide)).1
      3 rfl (by decide)).trans (by decide),
   ((stop_graceful_then_forced "v" [("v", 7)] 7
      ⟨GracefulOutcome.ignores, KillOutcome.exitsAfter 1⟩ (by decide) (by decide)).2
      1 (Or.inl rfl) rfl (by decide)).trans (by decide)⟩

/-- C5: stopping a tracked stream whose process has already vanished
removes the table entry and fails the call with a not-found error — not a
success — although the resulting table equals the one a successful stop
would leave. -/
theorem stop_vanished_process_not_found (vid : String) (table : ProcTable) (pid : Nat)
    (pb : ProcBehavior) (hpid : lookupAssoc vid table = some pid) (hpz : pid ≠ 0)
    (hg : pb.graceful = GracefulOutcome.noSuchProcess) :
    stop_collector_process vid table pb =
      (StopStatus.notFound, eraseEntry vid table, false) ∧
    StopStatus.notFound ≠ StopStatus.stopped := by
  have hpz' : (pid == 0) = false := by simpa using hpz
  exact ⟨by simp [stop_collector_process, hpid, hpz', hg], by simp⟩

/-- Witness for C5 at a concrete input. -/
theorem stop_vanished_process_not_found_witness :
    stop_collector_process "v" [("w", 5), ("v", 7)]
        ⟨GracefulOutcome.noSuchProcess, KillOutcome.raisesError⟩ =
      (StopStatus.notFound, [("w", 5)], false) :=
  ((stop_vanished_process_not_found "v" [("w", 5), ("v", 7)] 7
      ⟨GracefulOutcome.noSuchProcess, KillOutcome.raisesError⟩
      (by decide) (by decide) rfl).1).trans (by decide)

/-- C6: if the forced-kill attempt raises an unexpected error, `stop`
fails with a server-error-equivalent and the table entry for the stream is
left unchanged. -/
theorem stop_kill_error_keeps_entry (vid : String) (table : ProcTable) (pid : Nat)
    (pb : ProcBehavior) (hpid : lookupAssoc vid table = some pid) (hpz : pid ≠ 0)
    (hreach : pb.graceful = GracefulOutcome.ignores ∨
      ∃ t, pb.graceful = GracefulOutcome.exitsAfter t ∧ 5 < t)
    (hk : pb.kill = KillOutcome.raisesError) :
    stop_collector_process vid table pb = (StopStatus.serverError, table, true) := by
  have hpz' : (pid == 0) = false := by simpa using hpz
  rcases hreach with hg | ⟨t, hg, ht⟩
  · simp [stop_collector_process, killPhase, hpid, hpz', hg, hk]
  · have ht' : ¬ t ≤ 5 := by omega
    simp [stop_collector_process, killPhase, hpid, hpz', hg, hk, ht']

/-- Witness for C6 at a concrete input: the entry for "v" survives. -/
theorem stop_kill_error_keeps_entry_witness :
    stop_collector_process "v" [("v", 7)]
        ⟨GracefulOutcome.exitsAfter 9, KillOutcome.raisesError⟩ =
      (StopStatus.serverError, [("v", 7)], true) :=
  stop_kill_error_keeps_entry "v" [("v", 7)] 7
    ⟨GracefulOutcome.exitsAfter 9, KillOutcome.raisesError⟩
    (by decide) (by decide) (Or.inr ⟨9, rfl, by decide⟩) rfl

/-! ### Snapshot isolation of `get_running_processes` (C9) -/

/-- No mutation writes an existing snapshot cell: the snapshot heap only
ever grows at the end. -/
theorem applyMutation_snapshots_grow (s : SupervisorState) (op : TableMutation) :
    ∃ t, (applyMutation s op).snapshots = s.snapshots ++ t := by
  cases op with
  | startOp vid pid => exact ⟨[], by simp [applyMutation]⟩
  | stopOp vid pb => exact ⟨[], by simp [applyMutation]⟩
  | listOp => exact ⟨[s.table], by simp [applyMutation, get_running_processes]⟩

theorem foldl_applyMutation_snapshots_grow (ops : List TableMutation)
    (s : SupervisorState) :
    ∃ t, (ops.foldl applyMutation s).snapshots = s.snapshots ++ t := by
  induction ops generalizing s with
  | nil => exact ⟨[], by simp⟩
  | cons op rest ih =>
    obtain ⟨t₁, h₁⟩ := applyMutation_snapshots_grow s op
    obtain ⟨t₂, h₂⟩ := ih (applyMutation s op)
    exact ⟨t₁ ++ t₂, by rw [List.foldl_cons, h₂, h₁, List.append_assoc]⟩

/-- C9: `get_running_processes` returns a snapshot copy of the supervisor
table: after any sequence of table mutations (start, stop, further list
calls) performed after the call, the snapshot cell it returned still holds
the table contents as they were at the call. -/
theorem get_running_processes_snapshot (s : SupervisorState)
    (ops : List TableMutation) :
    ((ops.foldl applyMutation (get_running_processes s).2).snapshots)[
      (get_running_processes s).1]? = some s.table := by
  obtain ⟨t, ht⟩ := foldl_applyMutation_snapshots_grow ops (get_running_processes s).2
  rw [ht]
  show ((s.snapshots ++ [s.table]) ++ t)[s.snapshots.length]? = some s.table
  rw [List.getElem?_append_left (by simp)]
  simp

/-! ### Latest-log-file selection (C7) -/

theorem maxByCtime_mem (f : String × Nat) (fs : List (String × Nat)) :
    maxByCtime f fs ∈ f :: fs := by
  induction fs generalizing f with
  | nil => simp [maxByCtime]
  | cons g gs ih =>
    have h := ih (if g.2 > f.2 then g else f)
    simp only [maxByCtime, List.foldl_cons] at h ⊢
    rcases List.mem_cons.mp h with h' | h'
    · rw [h']
      split
      · exact List.mem_cons_of_mem f (List.mem_cons_self g gs)
      · exact List.mem_cons_self f (g :: gs)
    · exact List.mem_cons_of_mem f (List.mem_cons_of_mem g h')

theorem maxByCtime_ge (f : String × Nat) (fs : List (String × Nat)) :
    ∀ g ∈ f :: fs, g.2 ≤ (maxByCtime f fs).2 := by
  induction fs generalizing f with
  | nil =>
    intro g hg
    rcases List.mem_cons.mp hg with rfl | h'
    · exact Nat.le_refl _
    · cases h'
  | cons g' gs ih =>
    intro g hg
    have hstep : f.2 ≤ (if g'.2 > f.2 then g' else f).2 ∧
        g'.2 ≤ (if g'.2 > f.2 then g' else f).2 := by
      split <;> omega
    have hrec := ih (if g'.2 > f.2 then g' else f)
    simp only [maxByCtime, List.foldl_cons] at hrec ⊢
    rcases List.mem_cons.mp hg with rfl | h'
    · exact Nat.le_trans hstep.1 (hrec _ (List.mem_cons_self _ gs))
    · rcases List.mem_cons.mp h' with rfl | h''
      · exact Nat.le_trans hstep.2 (hrec _ (List.mem_cons_self _ gs))
      · exact hrec g (List.mem_cons_of_mem _ h'')

/-- C7: `get_latest_chat_log_file` returns `none` when no file in the
directory matches the stream's naming convention; and when a matching
file strictly dominates every other matching file in creation time, it
returns exactly that file — independently of filename lexical order,
which the selection never consults. -/
theorem get_latest_chat_log_file_correct (vid : String)
    (files : List (String × Nat)) :
    (files.filter (fun f => matchesLogName vid f.1) = [] →
      get_latest_chat_log_file vid files = none) ∧
    (∀ f t, (f, t) ∈ files.filter (fun f => matchesLogName vid f.1) →
      (∀ g ∈ files.filter (fun f => matchesLogName vid f.1), g ≠ (f, t) → g.2 < t) →
      get_latest_chat_log_file vid files = some f) := by
  constructor
  · intro h
    simp [get_latest_chat_log_file, h]
  · intro f t hmem hmax
    unfold get_latest_chat_log_file
    cases hm : files.filter (fun f => matchesLogName vid f.1) with
    | nil => rw [hm] at hmem; cases hmem
    | cons f₀ fs =>
      rw [hm] at hmem hmax
      have hres_mem := maxByCtime_mem f₀ fs
      have hres_ge := maxByCtime_ge f₀ fs (f, t) hmem
      show some (maxByCtime f₀ fs).1 = some f
      by_cases he : maxByCtime f₀ fs = (f, t)
      · rw [he]
      · have hlt := hmax _ hres_mem he
        simp only at hres_ge
        omega

/-- Witness for C7 at a concrete directory listing: among three matching
files the lexically smallest name has the greatest creation time and is
selected; a non-matching file with a larger creation time is ignored. -/
theorem get_latest_chat_log_file_correct_witness :
    get_latest_chat_log_file "v"
        [("chat_log_v_20240103_000000.csv", 3), ("chat_log_v_20240101_000000.csv", 5),
         ("chat_log_v_20240102_000000.csv", 4), ("other.txt", 99)] =
      some "chat_log_v_20240101_000000.csv" :=
  (get_latest_chat_log_file_correct "v"
      [("chat_log_v_20240103_000000.csv", 3), ("chat_log_v_20240101_000000.csv", 5),
       ("chat_log_v_20240102_000000.csv", 4), ("other.txt", 99)]).2
    "chat_log_v_20240101_000000.csv" 5 (by decide) (by decide)

/-! ### Parse-failure degradation in `get_chat_log_messages` (C8) -/

/-- C8: a data row whose textual timestamp does not parse against the
fixed format yields a record with derived numeric timestamp 0, and its
presence does not prevent any other row of the file (before or after it)
from being parsed into a record. -/
theorem get_chat_log_messages_degrades (vid : String)
    (pre post : List (List String)) (d a m sc : String) (rest : List String)
    (hbad : parseTimestampMs d = none) :
    get_chat_log_messages vid (pre ++ (d :: a :: m :: sc :: rest) :: post) =
      get_chat_log_messages vid pre
        ++ (⟨d, a, m, sc, vid, 0⟩ : LogRecord) :: get_chat_log_messages vid post := by
  simp [get_chat_log_messages, List.filterMap_append, rowToRecord, hbad]

/-- Witness for C8 at a concrete file: an unparseable middle row gets
timestamp 0 while the surrounding rows parse normally. -/
theorem get_chat_log_messages_degrades_witness :
    parseTimestampMs "garbage" = none ∧
    get_chat_log_messages "v"
        [["2024-06-15 12:30:45", "x", "y", ""],
         ["garbage", "a", "m", "5"],
         ["1970-01-01 00:00:00", "p", "q", ""]] =
      get_chat_log_messages "v" [["2024-06-15 12:30:45", "x", "y", ""]]
        ++ (⟨"garbage", "a", "m", "5", "v", 0⟩ : LogRecord)
        :: get_chat_log_messages "v" [["1970-01-01 00:00:00", "p", "q", ""]] :=
  ⟨rfl, get_chat_log_messages_degrades "v" [["2024-06-15 12:30:45", "x", "y", ""]]
    [["1970-01-01 00:00:00", "p", "q", ""]] "garbage" "a" "m" "5" [] rfl⟩

/-! ### Store collection naming (C4) -/

/-- C4 counterexample: the collection addressed by the query, analyze
and import operations of src/main.py is not named `messages_{stream_id}`:
with an empty memo table and first-use datetime `20240101_000000`, stream
`abc` is mapped to collection `messages_abc_20240101_000000`. -/
theorem get_messages_collection_name_ne_stream_id_alone :
    (get_messages_collection_name "abc" [] "20240101_000000").1 ≠
      collector_messages_collection_name "abc" ∧
    (get_messages_collection_name "abc" [] "20240101_000000").1 ≠ "messages_abc" := by
  constructor <;> decide

theorem lookupAssoc_append_self {α : Type} (vid : String) (x : α)
    (dts : List (String × α)) (h : lookupAssoc vid dts = none) :
    lookupAssoc vid (dts ++ [(vid, x)]) = some x := by
  induction dts with
  | nil => simp [lookupAssoc]
  | cons e rest ih =>
    obtain ⟨v, y⟩ := e
    by_cases hv : v == vid
    · simp [lookupAssoc, hv] at h
    · simp only [lookupAssoc, hv, Bool.false_eq_true, if_false, List.cons_append] at h ⊢
      exact ih h

/-- C4 amended: the collection addressed by the query, analyze and import
operations is named `messages_{stream_id}_{dt}`, where `dt` is the
datetime string memoised at first use for that stream; the name is stable
across subsequent calls (so the three operations address one collection
within a run), but it is not a function of the stream identifier alone. -/
theorem get_messages_collection_name_memoised (vid : String) (dts : DatetimeTable)
    (now now₂ : String) :
    (get_messages_collection_name vid dts now).1 =
      "messages_" ++ vid ++ "_" ++ (get_collection_datetime vid dts now).1 ∧
    (get_messages_collection_name vid
        (get_messages_collection_name vid dts now).2 now₂).1 =
      (get_messages_collection_name vid dts now).1 := by
  refine ⟨rfl, ?_⟩
  unfold get_messages_collection_name get_collection_datetime
  cases h : lookupAssoc vid dts with
  | some dt => simp [h]
  | none => simp [h, lookupAssoc_append_self vid now dts h]

end YtBackend
